import Mathlib

/-!
Shallow embedding of the path-authorization and batch-dispatch logic of
`image-vision-mcp` (files `src/image-vision-mcp.js` and `src/vision-mcp.js`;
the functions `isSafePath`, `checkPath` and the four tool handlers are
textually identical in structure across the two files, so a single embedding
covers both).

Modelling choices:
 - Node's `path.resolve` followed by `path.normalize` (POSIX semantics) is
   embedded as `resolve cwd p`: if `p` is absolute it is normalized as is,
   otherwise it is joined to the current working directory and then
   normalized.  Normalization collapses empty and `.` segments and resolves
   `..` segments, never popping above the root — exactly Node's
   `normalizeString` with `allowAboveRoot = false` for absolute paths.
   `path.normalize` applied after `path.resolve` is the identity on the
   already-normalized output, so the composition is one function here.
 - The filesystem (`fs.existsSync`) is a parameter `fsExists : String → Bool`.
 - The Ollama call in `_executePrompt` is a parameter
   `provider : String → String → Except String String` taking the file path
   and the instruction, returning a description or failing.
 - JavaScript exceptions become `Except String`; the thrown message strings
   are copied verbatim from the source.
 - `error.message || "Unknown error occurred"` is `errMsg`: the fallback
   fires exactly when the message is the empty string (falsy in JS).
-/

namespace ImageVisionMcp

/-- Split a character list on `/`, keeping empty segments (the behavior of
splitting a path string on the separator). `acc` holds the current segment
reversed. -/
def splitSegsAux : List Char → List Char → List (List Char)
  | acc, [] => [acc.reverse]
  | acc, c :: cs =>
    if c = '/' then acc.reverse :: splitSegsAux [] cs
    else splitSegsAux (c :: acc) cs

/-- One step of Node path normalization over the list of already-kept
segments (in reverse order): empty and `.` segments are dropped, `..` pops
the last kept segment (or is dropped at the root), anything else is kept. -/
def normStep (acc : List (List Char)) (seg : List Char) : List (List Char) :=
  if seg = [] ∨ seg = ['.'] then acc
  else if seg = ['.', '.'] then acc.tail
  else seg :: acc

/-- Join segments with `/` (no leading or trailing separator). -/
def joinSegs : List (List Char) → List Char
  | [] => []
  | [s] => s
  | s :: t :: rest => s ++ '/' :: joinSegs (t :: rest)

/-- Embedding of `path.normalize(path.resolve(p))` (POSIX) on character
lists: make `p` absolute against the working directory `cwd`, then collapse
`.`, `..` and empty segments, never popping above the root — Node's
`normalizeString` with `allowAboveRoot = false`.  `path.normalize` applied
after `path.resolve` is the identity on the already-normalized output, so
the composition is one function. -/
def resolveChars (cwd p : List Char) : List Char :=
  let full := if p.head? = some '/' then p else cwd ++ '/' :: p
  '/' :: joinSegs ((splitSegsAux [] full).foldl normStep []).reverse

/-- String-level wrapper of `resolveChars`. -/
def resolve (cwd p : String) : String :=
  String.mk (resolveChars cwd.data p.data)

/-- Embedding of `isSafePath` (src/image-vision-mcp.js:275-291,
src/vision-mcp.js:109-125): the resolved candidate is compared against each
resolved permitted root by a string prefix test
(`normalizedPath.startsWith(normalizedBasePath)`, embedded as
`List.isPrefixOf` on the character lists); the source's `for` loop with
early `return true` and final `return false` is `List.any`.  The source's
`try { ... } catch { continue }` around the comparison is dropped:
`String.prototype.startsWith` does not throw. -/
def isSafePath (cwd : String) (permittedDirectories : List String)
    (pathToCheck : String) : Bool :=
  let normalizedPath := resolveChars cwd.data pathToCheck.data
  permittedDirectories.any fun basePath =>
    (resolveChars cwd.data basePath.data).isPrefixOf normalizedPath

/-- The message of the error thrown by `checkPath` when the path does not
exist (source: `Path does not exist: ${filePath}`). -/
def notFoundMsg (filePath : String) : String :=
  "Path does not exist: " ++ filePath

/-- The message of the error thrown by `checkPath` when the path is outside
every permitted directory. -/
def outsideMsg : String :=
  "Path not allowed: Not in permitted directories"

/-- Embedding of `checkPath` (src/image-vision-mcp.js:294-304,
src/vision-mcp.js:128-138): existence is tested first on the raw path, then
containment; success returns `true`. -/
def checkPath (cwd : String) (fsExists : String → Bool) (roots : List String)
    (filePath : String) : Except String Bool :=
  if fsExists filePath = false then
    Except.error (notFoundMsg filePath)
  else if isSafePath cwd roots filePath = false then
    Except.error outsideMsg
  else
    Except.ok true

/-- One per-path outcome record pushed onto `results` by the tool handlers.
A success has no `error` field in the source (here `none`) and a failure has
`description: null` (here `none`). -/
structure Outcome where
  path : String
  success : Bool
  error : Option String
  description : Option String
deriving DecidableEq, Repr

/-- Embedding of `error.message || "Unknown error occurred"`: the empty
string is falsy in JavaScript, so it is replaced by the fallback. -/
def errMsg (e : String) : String :=
  if e = "" then "Unknown error occurred" else e

/-- The body of the `for (const filePath of mediaPaths)` loop common to all
four tool handlers: run `checkPath`, then the provider call, and fold any
thrown error into a failure outcome for this path alone. -/
def processPath (cwd : String) (fsExists : String → Bool) (roots : List String)
    (provider : String → String → Except String String) (prompt : String)
    (filePath : String) : Outcome :=
  match checkPath cwd fsExists roots filePath with
  | Except.error e =>
      { path := filePath, success := false, error := some (errMsg e),
        description := none }
  | Except.ok _ =>
      match provider filePath prompt with
      | Except.error e =>
          { path := filePath, success := false, error := some (errMsg e),
            description := none }
      | Except.ok desc =>
          { path := filePath, success := true, error := none,
            description := some desc }

/-- Whether the handler reaches the `_executePrompt` call for a given path:
exactly when `checkPath` did not throw. -/
def providerInvoked (cwd : String) (fsExists : String → Bool)
    (roots : List String) (filePath : String) : Bool :=
  (checkPath cwd fsExists roots filePath).isOk

/-- Built-in instruction of `getImageDescription` (abbreviated: the template
text is static configuration with no logic). -/
def genericPrompt : String :=
  "Analyze this image and provide a detailed description."

/-- Built-in instruction of `getPhotoshopImageDescription` (abbreviated). -/
def photoshopPrompt : String :=
  "Analyze this Photoshop layer for design work."

/-- Built-in instruction of `getPhotographDescription` (abbreviated). -/
def photographPrompt : String :=
  "Analyze this photograph from your perspective as a visual critic."

/-- Handler of the `getImageDescriptionWithPrompt` tool
(src/image-vision-mcp.js:66-97): the loop accumulating one outcome per
requested path is `List.map`. -/
def getImageDescriptionWithPrompt (cwd : String) (fsExists : String → Bool)
    (roots : List String) (provider : String → String → Except String String)
    (mediaPaths : List String) (prompt : String) : List Outcome :=
  mediaPaths.map (processPath cwd fsExists roots provider prompt)

/-- Handler of the `getImageDescription` tool
(src/image-vision-mcp.js:107-144). -/
def getImageDescription (cwd : String) (fsExists : String → Bool)
    (roots : List String) (provider : String → String → Except String String)
    (mediaPaths : List String) : List Outcome :=
  mediaPaths.map (processPath cwd fsExists roots provider genericPrompt)

/-- Handler of the `getPhotoshopImageDescription` tool
(src/image-vision-mcp.js:159-197). -/
def getPhotoshopImageDescription (cwd : String) (fsExists : String → Bool)
    (roots : List String) (provider : String → String → Except String String)
    (mediaPaths : List String) : List Outcome :=
  mediaPaths.map (processPath cwd fsExists roots provider photoshopPrompt)

/-- Handler of the `getPhotographDescription` tool
(src/image-vision-mcp.js:212-248). -/
def getPhotographDescription (cwd : String) (fsExists : String → Bool)
    (roots : List String) (provider : String → String → Except String String)
    (mediaPaths : List String) : List Outcome :=
  mediaPaths.map (processPath cwd fsExists roots provider photographPrompt)

/-- An absolute candidate (leading `/`) is resolved the same way under every
working directory. -/
theorem resolveChars_absolute (cwd p : List Char) (h : p.head? = some '/') :
    resolveChars cwd p = resolveChars [] p := by
  unfold resolveChars
  rw [if_pos h, if_pos h]

/-- The outcome produced for a path always records that path. -/
theorem processPath_path (cwd : String) (fsExists : String → Bool)
    (roots : List String) (provider : String → String → Except String String)
    (prompt p : String) :
    (processPath cwd fsExists roots provider prompt p).path = p := by
  unfold processPath
  cases checkPath cwd fsExists roots p with
  | error e => rfl
  | ok b =>
    cases provider p prompt with
    | error e => rfl
    | ok d => rfl

/-- Sanity check of the path model: a relative path is resolved against the
working directory and `.`, `..`, and empty segments collapse as in Node. -/
theorem resolve_relative_example : resolve "/x" "a/../b/./c//d" = "/x/b/c/d" := by
  decide

/-- Sanity check of the path model: `..` never pops above the root. -/
theorem resolve_root_example : resolve "/" "/../../a" = "/a" := by decide

/-- `List.any` is invariant under permutation of the list. -/
theorem any_perm {α : Type} (f : α → Bool) {l1 l2 : List α}
    (h : l1.Perm l2) : l1.any f = l2.any f := by
  cases hb : l2.any f with
  | true =>
    rw [List.any_eq_true] at hb ⊢
    obtain ⟨x, hx, hfx⟩ := hb
    exact ⟨x, h.mem_iff.mpr hx, hfx⟩
  | false =>
    rw [List.any_eq_false] at hb ⊢
    intro x hx
    exact hb x (h.mem_iff.mp hx)

/-- The not-found message is never the empty string. -/
theorem notFoundMsg_ne_empty (p : String) : notFoundMsg p ≠ "" := by
  intro h
  have hd := congrArg (fun s => s.data.take 1) h
  simp only [notFoundMsg, String.data_append] at hd
  rw [List.take_append_of_le_length (by decide)] at hd
  revert hd
  decide

/-- The sanitized error message is never the empty string. -/
theorem errMsg_ne_empty (e : String) : errMsg e ≠ "" := by
  unfold errMsg
  by_cases h : e = ""
  · rw [if_pos h]
    decide
  · rw [if_neg h]
    exact h

/-- The two `checkPath` error messages are always distinguishable. -/
theorem notFoundMsg_ne_outsideMsg (p : String) : notFoundMsg p ≠ outsideMsg := by
  intro h
  have hd := congrArg (fun s => s.data.take 6) h
  simp only [notFoundMsg, outsideMsg, String.data_append] at hd
  rw [List.take_append_of_le_length (by decide)] at hd
  revert hd
  decide

/-- C1: for every candidate path and configured roots, `isSafePath` returns
`true` exactly when the resolved normalized candidate string starts with the
resolved normalized string of some root; in particular the permitted root
`/a/b` authorizes the candidate `/a/bc/secret`, because the containment
check is a string prefix test and not a path-segment boundary test. -/
theorem C1_containment_string_prefix_test :
    (∀ (cwd : String) (roots : List String) (p : String),
      isSafePath cwd roots p = true ↔
        ∃ r ∈ roots,
          (resolveChars cwd.data r.data).isPrefixOf
            (resolveChars cwd.data p.data) = true) ∧
    ∀ cwd : String, isSafePath cwd ["/a/b"] "/a/bc/secret" = true := by
  constructor
  · intro cwd roots p
    simp [isSafePath, List.any_eq_true]
  · intro cwd
    simp only [isSafePath, List.any_cons, List.any_nil, Bool.or_false]
    rw [resolveChars_absolute _ _ (by decide : ("/a/b".data).head? = some '/'),
      resolveChars_absolute _ _
        (by decide : ("/a/bc/secret".data).head? = some '/')]
    decide

/-- C2: every one of the four description tools returns exactly one outcome
per requested path, in the same order as the input, for every mix of
failures. -/
theorem C2_batch_outcome_shape (cwd : String) (fsExists : String → Bool)
    (roots : List String) (provider : String → String → Except String String)
    (mediaPaths : List String) (prompt : String) :
    ((getImageDescription cwd fsExists roots provider mediaPaths).length =
        mediaPaths.length ∧
      (getImageDescription cwd fsExists roots provider mediaPaths).map
        Outcome.path = mediaPaths) ∧
    ((getImageDescriptionWithPrompt cwd fsExists roots provider mediaPaths
        prompt).length = mediaPaths.length ∧
      (getImageDescriptionWithPrompt cwd fsExists roots provider mediaPaths
        prompt).map Outcome.path = mediaPaths) ∧
    ((getPhotoshopImageDescription cwd fsExists roots provider
        mediaPaths).length = mediaPaths.length ∧
      (getPhotoshopImageDescription cwd fsExists roots provider
        mediaPaths).map Outcome.path = mediaPaths) ∧
    ((getPhotographDescription cwd fsExists roots provider
        mediaPaths).length = mediaPaths.length ∧
      (getPhotographDescription cwd fsExists roots provider
        mediaPaths).map Outcome.path = mediaPaths) := by
  have hmap : ∀ pr : String,
      (mediaPaths.map (processPath cwd fsExists roots provider pr)).map
        Outcome.path = mediaPaths := by
    intro pr
    rw [List.map_map]
    have hfun : (Outcome.path ∘ processPath cwd fsExists roots provider pr) =
        id := funext fun x => processPath_path cwd fsExists roots provider pr x
    rw [hfun, List.map_id]
  exact ⟨⟨List.length_map _ _, hmap _⟩, ⟨List.length_map _ _, hmap _⟩,
    ⟨List.length_map _ _, hmap _⟩, ⟨List.length_map _ _, hmap _⟩⟩

/-- C3: `checkPath` tests existence before containment: when no filesystem
entry exists at the path it fails with the not-found error, and the result
does not depend on the configured roots at all. -/
theorem C3_existence_checked_first (cwd : String) (fsExists : String → Bool)
    (roots roots2 : List String) (p : String) (h : fsExists p = false) :
    checkPath cwd fsExists roots p = Except.error (notFoundMsg p) ∧
    checkPath cwd fsExists roots p = checkPath cwd fsExists roots2 p := by
  unfold checkPath
  rw [h]
  simp

/-- Witness for C3 at a concrete nonexistent path outside every root. -/
theorem C3_existence_checked_first_witness :
    checkPath "/" (fun _ => false) [] "/etc/passwd" =
      Except.error (notFoundMsg "/etc/passwd") ∧
    checkPath "/" (fun _ => false) [] "/etc/passwd" =
      checkPath "/" (fun _ => false) ["/a"] "/etc/passwd" :=
  C3_existence_checked_first "/" (fun _ => false) [] ["/a"] "/etc/passwd" rfl

/-- C4: a path contained in no permitted root is denied (an error is
thrown), whatever the filesystem says about its existence. -/
theorem C4_outside_roots_denied (cwd : String) (fsExists : String → Bool)
    (roots : List String) (p : String)
    (h : isSafePath cwd roots p = false) :
    ∃ e, checkPath cwd fsExists roots p = Except.error e := by
  unfold checkPath
  cases hf : fsExists p with
  | false => exact ⟨notFoundMsg p, by simp⟩
  | true => exact ⟨outsideMsg, by simp [h]⟩

/-- Witness for C4 at a concrete existing path outside the only root. -/
theorem C4_outside_roots_denied_witness :
    ∃ e, checkPath "/" (fun _ => true) ["/data"] "/etc/passwd" =
      Except.error e :=
  C4_outside_roots_denied "/" (fun _ => true) ["/data"] "/etc/passwd"
    (by decide)

/-- C5: a path contained in some permitted root that exists on disk is
allowed: `checkPath` returns `true` without throwing. -/
theorem C5_inside_roots_allowed (cwd : String) (fsExists : String → Bool)
    (roots : List String) (p : String)
    (hsafe : isSafePath cwd roots p = true) (hfs : fsExists p = true) :
    checkPath cwd fsExists roots p = Except.ok true := by
  unfold checkPath
  rw [hfs, hsafe]
  simp

/-- Witness for C5 at a concrete existing path under the only root. -/
theorem C5_inside_roots_allowed_witness :
    checkPath "/" (fun _ => true) ["/data/images"] "/data/images/cat.png" =
      Except.ok true :=
  C5_inside_roots_allowed "/" (fun _ => true) ["/data/images"]
    "/data/images/cat.png" (by decide) rfl

/-- C6: a requested path with no filesystem entry yields a failure outcome
carrying the not-found message, for every provider (so the provider is
never consulted), and the handler does not reach the provider call. -/
theorem C6_notFound_failure (cwd : String) (fsExists : String → Bool)
    (roots : List String) (provider : String → String → Except String String)
    (prompt p : String) (h : fsExists p = false) :
    processPath cwd fsExists roots provider prompt p =
      { path := p, success := false, error := some (notFoundMsg p),
        description := none } ∧
    providerInvoked cwd fsExists roots p = false := by
  have hcheck : checkPath cwd fsExists roots p =
      Except.error (notFoundMsg p) := by
    unfold checkPath
    rw [h]
    simp
  constructor
  · unfold processPath
    rw [hcheck]
    simp [errMsg, notFoundMsg_ne_empty p]
  · unfold providerInvoked
    rw [hcheck]
    rfl

/-- Witness for C6 at a concrete nonexistent path under a root. -/
theorem C6_notFound_failure_witness :
    processPath "/" (fun _ => false) ["/data"]
        (fun _ _ => Except.ok "a cat") "describe" "/data/img.png" =
      { path := "/data/img.png", success := false,
        error := some (notFoundMsg "/data/img.png"), description := none } ∧
    providerInvoked "/" (fun _ => false) ["/data"] "/data/img.png" = false :=
  C6_notFound_failure "/" (fun _ => false) ["/data"]
    (fun _ _ => Except.ok "a cat") "describe" "/data/img.png" rfl

/-- Every failure outcome produced by the shared per-path loop body carries
a nonempty error string and a null description. -/
theorem mem_map_processPath_failure (cwd : String) (fsExists : String → Bool)
    (roots : List String) (provider : String → String → Except String String)
    (prompt : String) (mediaPaths : List String) (o : Outcome)
    (ho : o ∈ mediaPaths.map (processPath cwd fsExists roots provider prompt))
    (hfail : o.success = false) :
    o.description = none ∧ ∃ s, o.error = some s ∧ s ≠ "" := by
  rw [List.mem_map] at ho
  obtain ⟨x, _, rfl⟩ := ho
  unfold processPath at hfail ⊢
  cases hc : checkPath cwd fsExists roots x with
  | error e =>
    exact ⟨rfl, errMsg e, rfl, errMsg_ne_empty e⟩
  | ok b =>
    cases hp : provider x prompt with
    | error e =>
      exact ⟨rfl, errMsg e, rfl, errMsg_ne_empty e⟩
    | ok d =>
      simp [hc, hp] at hfail

/-- C7: in every one of the four tools, every outcome is produced locally
per path (the handler is a total function on the batch, so no per-path
exception ever propagates to the batch caller), and every failure outcome
carries a nonempty human-readable error string and a null description. -/
theorem C7_failures_local_wellformed (cwd : String)
    (fsExists : String → Bool) (roots : List String)
    (provider : String → String → Except String String)
    (mediaPaths : List String) (prompt : String) (o : Outcome)
    (ho : o ∈ getImageDescription cwd fsExists roots provider mediaPaths ∨
      o ∈ getImageDescriptionWithPrompt cwd fsExists roots provider
        mediaPaths prompt ∨
      o ∈ getPhotoshopImageDescription cwd fsExists roots provider
        mediaPaths ∨
      o ∈ getPhotographDescription cwd fsExists roots provider mediaPaths)
    (hfail : o.success = false) :
    o.description = none ∧ ∃ s, o.error = some s ∧ s ≠ "" := by
  rcases ho with ho | ho | ho | ho
  · exact mem_map_processPath_failure cwd fsExists roots provider
      genericPrompt mediaPaths o ho hfail
  · exact mem_map_processPath_failure cwd fsExists roots provider
      prompt mediaPaths o ho hfail
  · exact mem_map_processPath_failure cwd fsExists roots provider
      photoshopPrompt mediaPaths o ho hfail
  · exact mem_map_processPath_failure cwd fsExists roots provider
      photographPrompt mediaPaths o ho hfail

/-- Witness for C7 at a concrete singleton batch whose only path fails. -/
theorem C7_failures_local_wellformed_witness :
    (processPath "/" (fun _ => false) [] (fun _ _ => Except.error "")
        genericPrompt "/x").description = none ∧
    ∃ s, (processPath "/" (fun _ => false) [] (fun _ _ => Except.error "")
        genericPrompt "/x").error = some s ∧ s ≠ "" :=
  C7_failures_local_wellformed "/" (fun _ => false) []
    (fun _ _ => Except.error "") ["/x"] "describe" _
    (Or.inl (List.Mem.head _)) rfl

/-- C8: for a path outside every root, the error reveals whether the path
exists: a missing path yields the not-found message, an existing one the
outside-roots message, and the two results are always distinguishable, so
existence of unauthorized paths leaks to the caller. -/
theorem C8_existence_probe (cwd : String) (roots : List String) (p : String)
    (fs1 fs2 : String → Bool) (h1 : fs1 p = false) (h2 : fs2 p = true)
    (hout : isSafePath cwd roots p = false) :
    checkPath cwd fs1 roots p = Except.error (notFoundMsg p) ∧
    checkPath cwd fs2 roots p = Except.error outsideMsg ∧
    checkPath cwd fs1 roots p ≠ checkPath cwd fs2 roots p := by
  have ha : checkPath cwd fs1 roots p = Except.error (notFoundMsg p) := by
    unfold checkPath
    rw [h1]
    simp
  have hb : checkPath cwd fs2 roots p = Except.error outsideMsg := by
    unfold checkPath
    rw [h2, hout]
    simp
  refine ⟨ha, hb, ?_⟩
  rw [ha, hb]
  intro h
  exact notFoundMsg_ne_outsideMsg p (Except.error.inj h)

/-- Witness for C8 at a concrete unauthorized path, with the two runs
differing only in whether the path exists. -/
theorem C8_existence_probe_witness :
    checkPath "/" (fun _ => false) ["/data"] "/etc/shadow" =
      Except.error (notFoundMsg "/etc/shadow") ∧
    checkPath "/" (fun _ => true) ["/data"] "/etc/shadow" =
      Except.error outsideMsg ∧
    checkPath "/" (fun _ => false) ["/data"] "/etc/shadow" ≠
      checkPath "/" (fun _ => true) ["/data"] "/etc/shadow" :=
  C8_existence_probe "/" ["/data"] "/etc/shadow" (fun _ => false)
    (fun _ => true) rfl rfl (by decide)

/-- C9: the containment decision of `isSafePath` is invariant under
permutation of the permitted roots list. -/
theorem C9_order_invariant (cwd p : String) (roots1 roots2 : List String)
    (h : roots1.Perm roots2) :
    isSafePath cwd roots1 p = isSafePath cwd roots2 p := by
  simp only [isSafePath]
  exact any_perm _ h

/-- Witness for C9 at a concrete two-root configuration and its swap. -/
theorem C9_order_invariant_witness :
    isSafePath "/" ["/a", "/b"] "/b/x" =
      isSafePath "/" ["/b", "/a"] "/b/x" :=
  C9_order_invariant "/" "/b/x" ["/a", "/b"] ["/b", "/a"]
    (List.Perm.swap "/b" "/a" [])

/-- C10: with the empty permitted-roots list (the default when no
`--permitted` argument is given), `isSafePath` rejects every candidate, so
every requested path yields a failure outcome and the provider is never
invoked. -/
theorem C10_empty_roots_deny_all :
    ∀ (cwd p : String) (fsExists : String → Bool)
      (provider : String → String → Except String String) (prompt : String),
      isSafePath cwd [] p = false ∧
      (processPath cwd fsExists [] provider prompt p).success = false ∧
      providerInvoked cwd fsExists [] p = false := by
  intro cwd p fsExists provider prompt
  have hsafe : isSafePath cwd [] p = false := rfl
  have hcheck : ∃ e, checkPath cwd fsExists [] p = Except.error e := by
    unfold checkPath
    cases hf : fsExists p with
    | false => exact ⟨notFoundMsg p, by simp⟩
    | true => exact ⟨outsideMsg, by simp [hsafe]⟩
  obtain ⟨e, he⟩ := hcheck
  refine ⟨hsafe, ?_, ?_⟩
  · unfold processPath
    rw [he]
  · unfold providerInvoked
    rw [he]
    rfl

end ImageVisionMcp
